import Mathlib

/-!
# ATLAS synchronization engine: a shallow embedding

This file embeds the parts of the ATLAS backend (FastAPI + SQLAlchemy) that
the verified properties are about:

* the sync-job ledger (`sync_logs` rows) and the final status transitions
  written by the three bulk-sync scripts (`scripts/iiq_bulk_sync.py`,
  `scripts/google_bulk_sync.py`, `scripts/meraki_bulk_sync.py`);
* the batched user-upsert loops of `GoogleConnector.bulk_sync_users` and
  `IIQConnector.bulk_sync_users` (`app/services/google_sync.py`,
  `app/services/iiq_sync.py`);
* the manual trigger / cancel endpoints and the schedule-update endpoint of
  `app/routers/utilities.py`;
* the scheduler tick `check_and_run_scheduled_syncs` of
  `app/services/sync_scheduler.py`;
* fee parsing `IIQConnector._parse_fee_data` and the location-name lookup
  cache `IIQConnector._get_location_name` of `app/services/iiq_sync.py`;
* `detect_conflicts` of `app/routers/devices.py`;
* `normalize_mac` / `format_mac` of `app/routers/utilities.py`.

Database state is modeled as explicit lists of rows, timestamps as `Nat`,
Python floats for fee amounts as `ℚ` (the verified properties concern
deduplication and counting, not rounding), and characters of MAC strings as
`Nat` code points.  External effects (HTTP calls to upstream APIs, the OS
process table) are passed in as explicit oracle arguments.
-/

namespace Atlas

/-! ## Job ledger rows (`app/models.py`, class `SyncLog`) -/

/-- One row of the `sync_logs` table.  Timestamps are `Nat`; `none` models SQL
NULL for `completed_at` / `error_message`. -/
structure SyncLogRow where
  id : Nat
  source : String
  status : String
  startedAt : Nat
  completedAt : Option Nat
  recordsProcessed : Nat
  recordsFailed : Nat
  errorMessage : Option String
  triggeredBy : String
deriving Repr, DecidableEq

/-- `db.query(SyncLog).filter(source, status == "running").first()` — the
existence check both routers and the scheduler use for mutual exclusion. -/
def findRunning (logs : List SyncLogRow) (source : String) : Option SyncLogRow :=
  logs.find? (fun l => l.source == source && l.status == "running")

/-- The sources accepted by the sync endpoints (`utilities.py`). -/
def validSources : List String := ["iiq", "google", "meraki"]

/-! ## Final status written by the bulk-sync scripts (claim C1)

Each script creates a `running` row, runs the sync, and finalizes the row.
The functions below are the exact field updates the scripts perform on their
`sync_log` row, with the wall clock passed in as `t`. -/

/-- `scripts/google_bulk_sync.py`, `main`, success path (lines 111–117):
sets `status = "success"` unconditionally, regardless of `total_errors`. -/
def googleScriptFinalizeOk (log : SyncLogRow) (t totalRecords totalErrors : Nat) :
    SyncLogRow :=
  { log with
    status := "success"
    completedAt := some t
    recordsProcessed := totalRecords
    recordsFailed := totalErrors }

/-- `scripts/google_bulk_sync.py`, `main`, fatal-exception path (lines 128–134). -/
def googleScriptFinalizeErr (log : SyncLogRow) (t : Nat) (msg : String)
    (totalRecords totalErrors : Nat) : SyncLogRow :=
  { log with
    status := "error"
    completedAt := some t
    errorMessage := some msg
    recordsProcessed := totalRecords
    recordsFailed := totalErrors }

/-- `scripts/iiq_bulk_sync.py`, `main`, success path (lines 109–114):
sets `status = "success"` unconditionally, regardless of `total_failed`. -/
def iiqScriptFinalizeOk (log : SyncLogRow) (t totalRecords totalFailed : Nat) :
    SyncLogRow :=
  { log with
    status := "success"
    completedAt := some t
    recordsProcessed := totalRecords
    recordsFailed := totalFailed }

/-- `scripts/iiq_bulk_sync.py`, `main`, fatal-exception path (lines 121–127). -/
def iiqScriptFinalizeErr (log : SyncLogRow) (t : Nat) (msg : String)
    (totalRecords totalFailed : Nat) : SyncLogRow :=
  { log with
    status := "error"
    completedAt := some t
    errorMessage := some msg
    recordsProcessed := totalRecords
    recordsFailed := totalFailed }

/-- `scripts/meraki_bulk_sync.py`, `main`, completion path (lines 74–80):
`status = "success" if result["total_errors"] == 0 else "partial"`. -/
def merakiScriptFinalizeOk (log : SyncLogRow) (t totalSuccess totalErrors : Nat) :
    SyncLogRow :=
  { log with
    status := if totalErrors == 0 then "success" else "partial"
    completedAt := some t
    recordsProcessed := totalSuccess
    recordsFailed := totalErrors }

/-- `scripts/meraki_bulk_sync.py`, `main`, fatal-exception path (lines 93–97). -/
def merakiScriptFinalizeErr (log : SyncLogRow) (t : Nat) (msg : String) :
    SyncLogRow :=
  { log with
    status := "error"
    completedAt := some t
    errorMessage := some msg }

/-! ## Manual trigger endpoint (claim C3)

`POST /api/utilities/sync/{source}` (`utilities.py`, `trigger_sync`,
lines 237–264).  The handler either raises an `HTTPException` or schedules
`run_sync_script(source)` as a background task (the script is then started
by `run_sync_script` as a detached subprocess) and returns at once; the
response never depends on the sync's outcome.  We model the scheduled
background task as the value carried by `started`: the pair of the source
and the `trigger` argument `run_sync_script` will receive (which defaults to
`"manual"`; the handler passes only the source). -/

inductive TriggerOutcome where
  /-- the handler raised `HTTPException(status_code = code)` -/
  | httpError (code : Nat) : TriggerOutcome
  /-- the handler returned normally after `background_tasks.add_task
  (run_sync_script, source)`; the payload is `(source, trigger)` -/
  | started (task : String × String) : TriggerOutcome
deriving Repr, DecidableEq

/-- `trigger_sync` from `app/routers/utilities.py`. -/
def trigger_sync (source : String) (logs : List SyncLogRow) : TriggerOutcome :=
  if source ∉ validSources then .httpError 400
  else
    match findRunning logs source with
    | some _ => .httpError 409
    | none => .started (source, "manual")

/-! ## Cancel endpoint (claim C4)

`POST /api/utilities/sync/{source}/cancel` (`utilities.py`, `cancel_sync`,
lines 267–310).  The per-instance `RUNNING_PROCESSES` map and the OS process
state are modeled by `proc : Option Bool` — `none` when the source is not in
the map (e.g. after a backend restart), `some alive` when it is tracked and
`alive` says whether `process.poll() is None`.  The handler's two effects are
returned as a pair: the database update / HTTP error, and the list of
signals sent to the process. -/

inductive CancelOutcome where
  | httpError (code : Nat) : CancelOutcome
  /-- the handler updated the running row to this value and committed -/
  | cancelled (updated : SyncLogRow) : CancelOutcome
deriving Repr, DecidableEq

/-- `cancel_sync` from `app/routers/utilities.py`.  The first component is
the ledger/HTTP outcome, the second the signals sent (`terminate`, and on
grace-period expiry `kill` — the wait itself has no ledger effect, so the
grace period is not modeled further). -/
def cancel_sync (source : String) (logs : List SyncLogRow) (proc : Option Bool)
    (now : Nat) : CancelOutcome × List String :=
  if source ∉ validSources then (.httpError 400, [])
  else
    match findRunning logs source with
    | none => (.httpError 404, [])
    | some l =>
      let signals := match proc with
        | some true => ["terminate"]
        | _ => []
      (.cancelled { l with
          status := "cancelled"
          completedAt := some now
          errorMessage := some "Cancelled by user" },
       signals)

/-! ## Scheduler tick (claim C5)

`check_and_run_scheduled_syncs` (`app/services/sync_scheduler.py`,
lines 24–80).  The current local time (already converted to the configured
timezone) is passed in as `minute`/`hour`; the enabled filter, the
hour-membership test, the running check, and the thread that calls
`run_sync_script(source, "scheduled")` are embedded directly.  The returned
list is the list of `(source, trigger)` pairs handed to `run_sync_script`,
in schedule order. -/

/-- One row of `sync_schedules` (`app/models.py`, class `SyncSchedule`;
`source` is the primary key). -/
structure ScheduleRow where
  source : String
  enabled : Bool
  hours : List Int
deriving Repr, DecidableEq

/-- `check_and_run_scheduled_syncs` from `app/services/sync_scheduler.py`. -/
def check_and_run_scheduled_syncs (minute hour : Int)
    (schedules : List ScheduleRow) (logs : List SyncLogRow) :
    List (String × String) :=
  if minute ≠ 0 then []
  else
    ((schedules.filter (·.enabled)).filter
      (fun s => decide (hour ∈ s.hours) && (findRunning logs s.source).isNone)).map
      (fun s => (s.source, "scheduled"))

/-! ## Schedule update endpoint (claim C8)

`PUT /api/utilities/schedules/{source}` (`utilities.py`, `update_schedule`,
lines 500–541).  The handler receives `data.hours : Optional[List[int]]`;
its own guard is `all(isinstance(h, int) and 0 <= h <= 23 for h in
data.hours)`, so an element is modeled as either a Python int (`jint`) or
any non-int value (`other`).  On success the handler stores
`sorted(list(set(data.hours)))`. -/

inductive HourVal where
  | jint (n : Int) : HourVal
  | other : HourVal
deriving Repr, DecidableEq

/-- `isinstance(h, int) and 0 <= h <= 23` for one element. -/
def hourOk : HourVal → Bool
  | .jint n => 0 ≤ n && n ≤ 23
  | .other => false

/-- The integer values of a list that passed the guard. -/
def hourInts (hs : List HourVal) : List Int :=
  hs.filterMap (fun h => match h with | .jint n => some n | .other => none)

/-- Insert into a strictly ascending list, dropping the value if present. -/
def insertUniqueSorted (n : Int) : List Int → List Int
  | [] => [n]
  | m :: rest =>
    if n < m then n :: m :: rest
    else if n = m then m :: rest
    else m :: insertUniqueSorted n rest

/-- `sorted(list(set(xs)))`: the distinct values of `xs` in ascending
order.  (Python's `set` iteration order is unspecified; `sorted` makes the
result this unique strictly ascending enumeration.) -/
def sortedDedup (l : List Int) : List Int :=
  l.foldl (fun acc n => insertUniqueSorted n acc) []

/-- The stored schedule row after a successful update. -/
structure ScheduleStored where
  source : String
  enabled : Bool
  hours : List Int
deriving Repr, DecidableEq

/-- `update_schedule` from `app/routers/utilities.py`.  `old` is the
existing `sync_schedules` row, if any; `enabled?`/`hours?` are the optional
request fields.  `Except Nat _` carries the `HTTPException` status code. -/
def update_schedule (source : String) (enabled? : Option Bool)
    (hours? : Option (List HourVal)) (old : Option ScheduleStored) :
    Except Nat ScheduleStored :=
  if source ∉ validSources then .error 400
  else if hours?.any (fun hs => !hs.all hourOk) then .error 400
  else
    let newHours := hours?.map (fun hs => sortedDedup (hourInts hs))
    match old with
    | some sched =>
      .ok { sched with
        enabled := enabled?.getD sched.enabled
        hours := newHours.getD sched.hours }
    | none =>
      .ok { source := source
            enabled := enabled?.getD true
            hours := newHours.getD [] }

/-! ## MAC normalization (claim C10)

`normalize_mac` / `format_mac` (`utilities.py`, lines 675–704).  Strings are
modeled as lists of Unicode code points (`Nat`), so Python's
`re.sub(r'[^a-fA-F0-9]', '', mac)` is a filter and `.upper()` a map (after
the filter only ASCII hex characters remain, where `.upper()` is the ASCII
upcase). -/

/-- Code-point test for `[a-fA-F0-9]` (the complement of the class removed
by `re.sub`). -/
def isHexCode (c : Nat) : Bool :=
  (48 ≤ c && c ≤ 57) || (97 ≤ c && c ≤ 102) || (65 ≤ c && c ≤ 70)

/-- `str.upper` on one ASCII code point. -/
def upperCode (c : Nat) : Nat :=
  if 97 ≤ c && c ≤ 122 then c - 32 else c

/-- `normalize_mac` from `app/routers/utilities.py`: strip every character
outside `[a-fA-F0-9]`, then upcase. -/
def normalize_mac (s : List Nat) : List Nat :=
  (s.filter isHexCode).map upperCode

/-- The code point of `:`. -/
def colonCode : Nat := 58

/-- `':'.join(normalized[i:i+2] for i in range(0, n, 2))` on an even-length
list: consecutive two-character groups joined by colons. -/
def colonJoinPairs : List Nat → List Nat
  | a :: b :: c :: rest => a :: b :: colonCode :: colonJoinPairs (c :: rest)
  | l => l

/-- `format_mac` from `app/routers/utilities.py`: normalize, then if the
result has 12 (or 6) characters, group it into colon-separated pairs;
otherwise return the normalization unchanged. -/
def format_mac (s : List Nat) : List Nat :=
  let n := normalize_mac s
  if n.length = 12 then colonJoinPairs n
  else if n.length = 6 then colonJoinPairs n
  else n

/-- Spec-side reading of "grouped into colon-separated two-character
pairs", written independently of `colonJoinPairs`: split into chunks of
two, intersperse `:` between the chunks, and flatten. -/
def chunksOfTwo : List Nat → List (List Nat)
  | [] => []
  | [a] => [[a]]
  | a :: b :: rest => [a, b] :: chunksOfTwo rest

/-- Spec-side grouping used to state the refinement half of claim C10. -/
def specGroupedPairs (l : List Nat) : List Nat :=
  ((chunksOfTwo l).intersperse [colonCode]).flatten

/-! ## Conflict detection (claim C7)

`detect_conflicts` (`app/routers/devices.py`, lines 26–61).  Only the record
fields the function reads are modeled.  Python truthiness of an optional
string is `none`/`some ""` falsy; `.strip().lower()` is `String.trim` and
`String.toLower` (the inputs are ASCII identifiers and emails). -/

/-- The fields of an `iiq_assets` row read by `detect_conflicts`. -/
structure IIQRecord where
  assetTag : Option String
  serialNumber : Option String
  assignedUserEmail : Option String
deriving Repr, DecidableEq

/-- The fields of a `google_devices` row read by `detect_conflicts`.
`recentUsers` models the JSON `recent_users` column (`none` for NULL). -/
structure GoogleRecord where
  recentUsers : Option (List (Option String))
deriving Repr, DecidableEq

/-- A ConflictItem-compatible dictionary. -/
structure ConflictItem where
  id : String
  title : String
  description : String
  remediation : String
  severity : String
deriving Repr, DecidableEq

/-- Python truthiness of an optional string. -/
def strTruthy : Option String → Bool
  | none => false
  | some s => !s.data.isEmpty

/-- The characters Python `str.strip()` removes: space and `\t\n\v\f\r`. -/
def pyWhite (c : Char) : Bool := c.toNat = 32 || (9 ≤ c.toNat && c.toNat ≤ 13)

/-- `str.strip()` on the character list: drop whitespace from both ends. -/
def pyStripChars (cs : List Char) : List Char :=
  ((cs.dropWhile pyWhite).reverse.dropWhile pyWhite).reverse

/-- `str.lower()` on one character (ASCII; the compared fields are tags,
serials and emails). -/
def pyLowerChar (c : Char) : Char :=
  if 65 ≤ c.toNat ∧ c.toNat ≤ 90 then Char.ofNat (c.toNat + 32) else c

/-- `.strip().lower()`. -/
def stripLower (s : String) : String := ⟨(pyStripChars s.data).map pyLowerChar⟩

/-- `(x or "").strip().lower()`. -/
def stripLowerD (s : Option String) : String := stripLower (s.getD "")

/-- Rule 1 of `detect_conflicts`: flag when the asset tag equals the serial
number (after strip/lowercase). -/
def conflictRuleTagSerial (iiq : Option IIQRecord) : List ConflictItem :=
  match iiq with
  | none => []
  | some r =>
    if strTruthy r.assetTag && strTruthy r.serialNumber &&
        (stripLowerD r.assetTag == stripLowerD r.serialNumber) then
      [{ id := "asset_tag_serial_match"
         title := "Asset Tag Misconfiguration"
         description := "The asset tag " ++ r.assetTag.getD "" ++
           " is identical to the serial number. Asset tags should be unique identifiers separate from serial numbers."
         remediation := "Update the asset tag in IIQ to a proper value (typically a district-assigned tag number)."
         severity := "warning" }]
    else []

/-- Rule 2 of `detect_conflicts`: flag when the IIQ owner email differs from
the first Google recent user (both present, compared case-insensitively). -/
def conflictRuleOwner (iiq : Option IIQRecord) (g : Option GoogleRecord) :
    List ConflictItem :=
  match iiq, g with
  | some r, some gr =>
    let iiqEmail := stripLowerD r.assignedUserEmail
    let googleUsers := gr.recentUsers.getD []
    match googleUsers with
    | [] => []
    | u0 :: _ =>
      let googleRecent := stripLowerD u0
      if !iiqEmail.isEmpty && !googleRecent.isEmpty && iiqEmail != googleRecent then
        [{ id := "owner_mismatch"
           title := "Owner Mismatch Detected"
           description := "IIQ shows this device assigned to " ++
             r.assignedUserEmail.getD "" ++
             ", but Google Admin shows the most recent user as " ++
             (u0.getD "") ++ "."
           remediation := "Either update the owner in IIQ to reflect the current user, or investigate why a different user logged into this device."
           severity := "warning" }]
      else []
  | _, _ => []

/-- `detect_conflicts` from `app/routers/devices.py`. -/
def detect_conflicts (iiq : Option IIQRecord) (g : Option GoogleRecord) :
    List ConflictItem :=
  conflictRuleTagSerial iiq ++ conflictRuleOwner iiq g

/-! ## Location-name lookup cache (claim C9)

`IIQConnector._get_location_name` (`app/services/iiq_sync.py`, lines 27–62).
The `location_cache` table is a list of entries; the single HTTP GET the
function may perform is passed in as an oracle `api`.  The function returns
the resolved name, the table after the call, and the number of external
requests it made. -/

/-- One row of `location_cache` (`app/models.py`, class `LocationCache`). -/
structure LocationCacheRow where
  locationId : String
  name : String
deriving Repr, DecidableEq

/-- Outcome of `requests.get(f"{base_url}/api/v1.0/locations/{id}")`:
a 200 response whose `Location.Name` is present, a 200 response without a
name, or a non-200 / raised exception. -/
inductive LocationApiResult where
  | okName (name : String) : LocationApiResult
  | okNoName : LocationApiResult
  | failure : LocationApiResult
deriving Repr, DecidableEq

/-- Result of one `_get_location_name` call. -/
structure LocationLookup where
  result : Option String
  cache : List LocationCacheRow
  externalCalls : Nat
deriving Repr, DecidableEq

/-- `db.query(LocationCache).filter(location_id == id).first()`. -/
def cacheFind (cache : List LocationCacheRow) (locationId : String) :
    Option String :=
  (cache.find? (fun e => e.locationId == locationId)).map (·.name)

/-- The all-zero GUID `_get_location_name` treats like a missing id. -/
def nilGuid : String := "00000000-0000-0000-0000-000000000000"

/-- `_get_location_name` from `app/services/iiq_sync.py`. -/
def get_location_name (cache : List LocationCacheRow) (locationId : String)
    (api : LocationApiResult) : LocationLookup :=
  if locationId = "" ∨ locationId = nilGuid then ⟨none, cache, 0⟩
  else
    match cacheFind cache locationId with
    | some name => ⟨some name, cache, 0⟩
    | none =>
      match api with
      | .okName name => ⟨some name, cache ++ [⟨locationId, name⟩], 1⟩
      | .okNoName => ⟨none, cache, 1⟩
      | .failure => ⟨none, cache, 1⟩

/-! ## Batched user upserts (claim C2)

`GoogleConnector.bulk_sync_users` (`app/services/google_sync.py`,
lines 549–700) and `IIQConnector.bulk_sync_users`
(`app/services/iiq_sync.py`, lines 562–705).  A record is reduced to the
fields the counting logic reads: its identifier (email / UserId), whether it
has the required identifiers at all (`valid`; invalid records are skipped
with `continue`), and whether its database upsert succeeds (`ok`, the
oracle for the store).  A batched `INSERT .. ON CONFLICT` fails exactly
when some record of the batch fails, and retrying a single record gives
that record's own outcome. -/

/-- One upstream user record, as seen by the counting logic. -/
structure URec where
  id : String
  valid : Bool
  ok : Bool
deriving Repr, DecidableEq

/-- A batched upsert succeeds iff every record of the batch does. -/
def batchOk (batch : List URec) : Bool := batch.all (·.ok)

/-- The counters a bulk user sync accumulates: `success_count`,
`error_count`, and the identifiers appended to `error_details` in order. -/
structure SyncCounts where
  success : Nat
  errors : Nat
  errorIds : List String
deriving Repr, DecidableEq

/-- `batch_size = 100` in both connectors. -/
def userBatchSize : Nat := 100

/-- Google: flush one batch (`google_sync.py` lines 623–649 and the final
batch, lines 663–682): try the whole batch; on failure roll back and retry
each record individually, counting and recording exactly the failures. -/
def googleFlush (c : SyncCounts) (batch : List URec) : SyncCounts :=
  if batchOk batch then
    { c with success := c.success + batch.length }
  else
    batch.foldl
      (fun c r =>
        if r.ok then { c with success := c.success + 1 }
        else { c with errors := c.errors + 1, errorIds := c.errorIds ++ [r.id] })
      c

/-- Google: process one fetched record (append to the batch; flush when the
batch reaches `batch_size`). -/
def googleStep (s : SyncCounts × List URec) (r : URec) : SyncCounts × List URec :=
  if !r.valid then s
  else
    let batch := s.2 ++ [r]
    if userBatchSize ≤ batch.length then (googleFlush s.1 batch, [])
    else (s.1, batch)

/-- `GoogleConnector.bulk_sync_users`, reduced to its counters. -/
def googleBulkSyncUsers (records : List URec) : SyncCounts :=
  let s := records.foldl googleStep (⟨0, 0, []⟩, [])
  if s.2.isEmpty then s.1 else googleFlush s.1 s.2

/-- IIQ: flush one batch (`iiq_sync.py` lines 629–662 and the final batch,
lines 668–705): on failure the whole batch is rolled back and counted
failed (`error_count += len(batch)`, `success_count -= len(batch)`), with
no individual retry and nothing recorded per record. -/
def iiqFlush (c : SyncCounts) (batch : List URec) : SyncCounts :=
  if batchOk batch then c
  else { c with errors := c.errors + batch.length,
                success := c.success - batch.length }

/-- IIQ loop state: counters, current batch, and `seen_user_ids`. -/
structure IIQLoopState where
  counts : SyncCounts
  batch : List URec
  seen : List String
deriving Repr, DecidableEq

/-- IIQ: process one fetched record (skip records without a UserId and
duplicates; `success_count += 1` on append; flush at `batch_size`). -/
def iiqStep (s : IIQLoopState) (r : URec) : IIQLoopState :=
  if !r.valid then s
  else if r.id ∈ s.seen then s
  else
    let seen := r.id :: s.seen
    let batch := s.batch ++ [r]
    let counts := { s.counts with success := s.counts.success + 1 }
    if userBatchSize ≤ batch.length then
      { counts := iiqFlush counts batch, batch := [], seen := seen }
    else
      { counts := counts, batch := batch, seen := seen }

/-- `IIQConnector.bulk_sync_users`, reduced to its counters. -/
def iiqBulkSyncUsers (records : List URec) : SyncCounts :=
  let s := records.foldl iiqStep ⟨⟨0, 0, []⟩, [], []⟩
  if s.batch.isEmpty then s.counts else iiqFlush s.counts s.batch

/-- Records of a list that are processed at all (have their identifiers). -/
def validRecs (records : List URec) : List URec := records.filter (·.valid)

/-- `len([r for r in l if r.ok])`. -/
def countOk (l : List URec) : Nat := (l.filter (·.ok)).length

/-- `len([r for r in l if not r.ok])`. -/
def countBad (l : List URec) : Nat := (l.filter (fun r => !r.ok)).length

/-- The identifiers of the failing records, in order. -/
def badIds (l : List URec) : List String :=
  (l.filter (fun r => !r.ok)).map (·.id)

/-! ## Fee parsing (claim C6)

`IIQConnector._parse_fee_data` (`app/services/iiq_sync.py`, lines 177–207).
A raw JSON scalar is `JVal`; Python `float(x)` on it is `jfloat`, which may
raise `ValueError` (non-numeric string — caught by the surrounding
`except (json.JSONDecodeError, ValueError)`) or `TypeError` (`None` — not
caught).  Float arithmetic is modeled over `ℚ`: the verified property is
about deduplication and which entries are counted, not rounding. -/

/-- A raw JSON scalar as stored in a fee entry's fields. -/
inductive JVal where
  | num (q : ℚ) : JVal
  | str (s : String) : JVal
  | null : JVal
deriving Repr, DecidableEq

/-- The two exceptions `float()` can raise here. -/
inductive PyErr where
  | valueError : PyErr
  | typeError : PyErr
deriving Repr, DecidableEq

/-- Value of a digit run (digits only, most significant first). -/
def digitsVal (cs : List Char) : Nat :=
  cs.foldl (fun acc c => acc * 10 + (c.toNat - 48)) 0

/-- Python `float()` on a simple decimal string: optional sign, then digits
with an optional fractional part (at least one digit overall).  Exotic
accepted forms (exponents, `inf`, `nan`, underscores) are not modeled; the
verified properties never depend on them. -/
def pyFloatOfChars (cs : List Char) : Option ℚ :=
  let (sign, rest) : ℚ × List Char :=
    match cs with
    | '-' :: r => (-1, r)
    | '+' :: r => (1, r)
    | r => (1, r)
  let intPart := rest.takeWhile Char.isDigit
  let rest' := rest.dropWhile Char.isDigit
  match rest' with
  | [] =>
    if intPart.isEmpty then none
    else some (sign * digitsVal intPart)
  | '.' :: frac =>
    if frac.all Char.isDigit && !(intPart.isEmpty && frac.isEmpty) then
      some (sign * ((digitsVal intPart : ℚ) +
        (digitsVal frac : ℚ) / ((10 : ℚ) ^ frac.length)))
    else none
  | _ => none

/-- `float(s)` for a string, which strips surrounding whitespace first. -/
def pyFloatStr (s : String) : Option ℚ := pyFloatOfChars s.trim.data

/-- `float(v)` on a raw JSON scalar. -/
def jfloat : JVal → Except PyErr ℚ
  | .num q => .ok q
  | .str s =>
    match pyFloatStr s with
    | some q => .ok q
    | none => .error .valueError
  | .null => .error .typeError

/-- One entry of the Fee Tracker JSON list; `none` models an absent field. -/
structure FeeItem where
  amount : Option JVal
  balance : Option JVal
  lastActivityDate : Option JVal
  pastDueAmount : Option JVal
deriving Repr, DecidableEq

/-- `item.get(field, 0)`. -/
def itemGetNum0 (v : Option JVal) : JVal := v.getD (.num 0)

/-- The deduplication key
`(item.get("Amount"), item.get("Balance"), item.get("LastActivityDate"))` —
the raw field values, not their parsed numbers. -/
def feeKey (i : FeeItem) : Option JVal × Option JVal × Option JVal :=
  (i.amount, i.balance, i.lastActivityDate)

/-- The accumulation loop of `_parse_fee_data` over the parsed list:
`seen`-keyed deduplication, summing `Balance` (and `PastDueAmount`) over
unseen entries with positive balance.  `float(item.get("Balance", 0))` runs
for every entry; `float(item.get("PastDueAmount", 0))` only for entries
that are actually counted. -/
def computeFeeGo :
    List FeeItem → List (Option JVal × Option JVal × Option JVal) → ℚ → ℚ →
    Except PyErr (ℚ × ℚ)
  | [], _, tb, tpd => .ok (tb, tpd)
  | i :: rest, seen, tb, tpd =>
    match jfloat (itemGetNum0 i.balance) with
    | .error e => .error e
    | .ok b =>
      if 0 < b then
        if feeKey i ∈ seen then computeFeeGo rest seen tb tpd
        else
          match jfloat (itemGetNum0 i.pastDueAmount) with
          | .error e => .error e
          | .ok pd => computeFeeGo rest (feeKey i :: seen) (tb + b) (tpd + pd)
      else computeFeeGo rest seen tb tpd

/-- The totals computed from one parsed Fee Tracker list. -/
def computeFee (items : List FeeItem) : Except PyErr (ℚ × ℚ) :=
  computeFeeGo items [] 0 0

/-- The `Value` of a custom field, after the `value and isinstance(value,
str)` guard: `none` models an absent, empty or non-string value; `notJson`
a nonempty string `json.loads` rejects (`JSONDecodeError`); `jsonList` a
nonempty string parsing to a JSON list of objects. -/
inductive FeeFieldValue where
  | notJson : FeeFieldValue
  | jsonList (items : List FeeItem) : FeeFieldValue
deriving Repr, DecidableEq

/-- One element of a payload's `CustomFieldValues`. -/
structure CustomField where
  customFieldTypeId : String
  value : Option FeeFieldValue
deriving Repr, DecidableEq

/-- `FEE_FIELD_TYPE_ID` from `app/services/iiq_sync.py`. -/
def feeFieldTypeId : String := "fb1baf3c-345c-4b85-ab35-d109851e27d4"

/-- `total if total > 0 else None`. -/
def mkFeeOpt (q : ℚ) : Option ℚ := if 0 < q then some q else none

/-- `_parse_fee_data` from `app/services/iiq_sync.py`: scan the
`CustomFieldValues` for the Fee Tracker field; on a parsed list return the
totals; on `JSONDecodeError`/`ValueError` fall through (`pass`) to the next
field; return `(None, None)` when no field yields a result.  A `TypeError`
from `float(None)` is not caught and propagates. -/
def parse_fee_data : List CustomField → Except PyErr (Option ℚ × Option ℚ)
  | [] => .ok (none, none)
  | f :: rest =>
    if f.customFieldTypeId == feeFieldTypeId then
      match f.value with
      | some (.jsonList items) =>
        match computeFee items with
        | .ok (tb, tpd) => .ok (mkFeeOpt tb, mkFeeOpt tpd)
        | .error .valueError => parse_fee_data rest
        | .error .typeError => .error .typeError
      | some .notJson => parse_fee_data rest
      | none => parse_fee_data rest
    else parse_fee_data rest

/-- Whether an entry's balance parses to a positive number (spec side). -/
def posBal (i : FeeItem) : Bool :=
  match jfloat (itemGetNum0 i.balance) with
  | .ok b => decide (0 < b)
  | .error _ => false

/-- The parsed balance of an entry (0 when it does not parse; spec side). -/
def balOf (i : FeeItem) : ℚ :=
  match jfloat (itemGetNum0 i.balance) with
  | .ok b => b
  | .error _ => 0

/-- The parsed past-due amount of an entry (spec side). -/
def pastDueOf (i : FeeItem) : ℚ :=
  match jfloat (itemGetNum0 i.pastDueAmount) with
  | .ok pd => pd
  | .error _ => 0

/-- Spec-side selection of the entries that are counted: positive-balance
entries whose key has not occurred before (among counted entries), starting
from an initial set of already-seen keys. -/
def posDedupFrom (seen : List (Option JVal × Option JVal × Option JVal)) :
    List FeeItem → List FeeItem
  | [] => []
  | i :: rest =>
    if posBal i ∧ feeKey i ∉ seen then
      i :: posDedupFrom (feeKey i :: seen) rest
    else posDedupFrom seen rest

/-! ## Lemmas about the ledger -/

/-- The mutual-exclusion query succeeds exactly when some row of the ledger
is a running row for the source. -/
theorem findRunning_isSome_iff (logs : List SyncLogRow) (source : String) :
    (findRunning logs source).isSome ↔
      ∃ l ∈ logs, l.source = source ∧ l.status = "running" := by
  simp [findRunning, List.find?_isSome, Bool.and_eq_true, beq_iff_eq]

/-- A found running row is a running row for the source. -/
theorem findRunning_some (logs : List SyncLogRow) (source : String)
    (l : SyncLogRow) (h : findRunning logs source = some l) :
    l.source = source ∧ l.status = "running" := by
  have := List.find?_some h
  simpa [Bool.and_eq_true, beq_iff_eq] using this

/-! ## Claim C1 -/

/-- C1: the claim says a sync job completing without a fatal exception moves
its SyncLog row to `success` only when `records_failed == 0` and to
`partial` whenever `records_failed > 0`.  Evaluating the scripts' completion
updates at a run with 9 processed and 1 failed record: the meraki script
indeed writes `partial`, but the google and iiq scripts write `success`
even though `records_failed = 1` (contradicting the `SyncLog` model's own
documentation of the two statuses); all three do set `completed_at`. -/
theorem scripts_finalize_success_despite_failures :
    (googleScriptFinalizeOk ⟨1, "google", "running", 0, none, 0, 0, none, "manual"⟩
        50 9 1).status = "success" ∧
    (googleScriptFinalizeOk ⟨1, "google", "running", 0, none, 0, 0, none, "manual"⟩
        50 9 1).recordsFailed = 1 ∧
    (googleScriptFinalizeOk ⟨1, "google", "running", 0, none, 0, 0, none, "manual"⟩
        50 9 1).completedAt = some 50 ∧
    (iiqScriptFinalizeOk ⟨2, "iiq", "running", 0, none, 0, 0, none, "cron"⟩
        50 9 1).status = "success" ∧
    (iiqScriptFinalizeOk ⟨2, "iiq", "running", 0, none, 0, 0, none, "cron"⟩
        50 9 1).recordsFailed = 1 ∧
    (merakiScriptFinalizeOk ⟨3, "meraki", "running", 0, none, 0, 0, none, "cron"⟩
        50 9 1).status = "partial" ∧
    (merakiScriptFinalizeOk ⟨3, "meraki", "running", 0, none, 0, 0, none, "cron"⟩
        50 9 0).status = "success" := by
  decide

/-! ## Claim C3 -/

/-- C3: for each of the three sources, the manual trigger endpoint rejects
with HTTP 409 exactly when the ledger holds a running row for the source,
and otherwise schedules the detached sync script (`run_sync_script` with
the default trigger `"manual"`) and returns. -/
theorem trigger_sync_conflict_iff (source : String) (logs : List SyncLogRow)
    (hs : source ∈ validSources) :
    (trigger_sync source logs = .httpError 409 ↔
      ∃ l ∈ logs, l.source = source ∧ l.status = "running") ∧
    ((¬ ∃ l ∈ logs, l.source = source ∧ l.status = "running") →
      trigger_sync source logs = .started (source, "manual")) := by
  have hmem : ¬ source ∉ validSources := by simpa using hs
  constructor
  · rw [← findRunning_isSome_iff]
    unfold trigger_sync
    rcases hrun : findRunning logs source with _ | l <;> simp [hmem, hrun]
  · intro hnone
    rw [← findRunning_isSome_iff] at hnone
    unfold trigger_sync
    rcases hrun : findRunning logs source with _ | l
    · simp [hmem]
    · simp [hrun] at hnone

/-- Witness for C3: with a running iiq row the trigger is rejected with 409;
with an empty ledger it starts the manual sync. -/
theorem trigger_sync_conflict_iff_witness :
    trigger_sync "iiq" [⟨1, "iiq", "running", 0, none, 0, 0, none, "manual"⟩] =
      .httpError 409 ∧
    trigger_sync "iiq" [] = .started ("iiq", "manual") := by
  constructor
  · exact (trigger_sync_conflict_iff "iiq"
      [⟨1, "iiq", "running", 0, none, 0, 0, none, "manual"⟩] (by decide)).1.mpr
      ⟨⟨1, "iiq", "running", 0, none, 0, 0, none, "manual"⟩, by decide, rfl, rfl⟩
  · exact (trigger_sync_conflict_iff "iiq" [] (by decide)).2 (by simp)

/-! ## Claim C4 -/

/-- C4: the cancel endpoint returns 404 exactly when the ledger holds no
running row for the source; otherwise it marks the found running row
`cancelled` with a non-null `completed_at` and the synthetic error message,
and the ledger outcome does not depend on the tracked OS process's state
(tracked-and-alive, tracked-but-exited, or untracked). -/
theorem cancel_sync_spec (source : String) (logs : List SyncLogRow)
    (proc proc' : Option Bool) (now : Nat) (hs : source ∈ validSources) :
    ((cancel_sync source logs proc now).1 = .httpError 404 ↔
      ¬ ∃ l ∈ logs, l.source = source ∧ l.status = "running") ∧
    (∀ l, findRunning logs source = some l →
      (cancel_sync source logs proc now).1 =
        .cancelled { l with
          status := "cancelled"
          completedAt := some now
          errorMessage := some "Cancelled by user" }) ∧
    (cancel_sync source logs proc now).1 = (cancel_sync source logs proc' now).1 := by
  have hmem : ¬ source ∉ validSources := by simpa using hs
  refine ⟨?_, ?_, ?_⟩
  · rw [← findRunning_isSome_iff]
    unfold cancel_sync
    rcases hrun : findRunning logs source with _ | l <;> simp [hmem, hrun]
  · intro l hrun
    unfold cancel_sync
    simp [hmem, hrun]
  · unfold cancel_sync
    rcases hrun : findRunning logs source with _ | l <;> simp [hmem, hrun]

/-- Witness for C4: cancelling with no running row yields 404; cancelling a
running google row marks it cancelled with `completed_at` and the synthetic
message, with the same ledger outcome whether the tracked process is still
alive (`some true`) or already gone (`none`). -/
theorem cancel_sync_spec_witness :
    (cancel_sync "google" [] (some true) 77).1 = .httpError 404 ∧
    (cancel_sync "google" [⟨4, "google", "running", 3, none, 0, 0, none, "manual"⟩]
        (some true) 77).1 =
      .cancelled ⟨4, "google", "cancelled", 3, some 77, 0, 0,
        some "Cancelled by user", "manual"⟩ ∧
    (cancel_sync "google" [⟨4, "google", "running", 3, none, 0, 0, none, "manual"⟩]
        (some true) 77).1 =
      (cancel_sync "google" [⟨4, "google", "running", 3, none, 0, 0, none, "manual"⟩]
        none 77).1 := by
  refine ⟨?_, ?_, ?_⟩
  · exact (cancel_sync_spec "google" [] (some true) (some true) 77 (by decide)).1.mpr
      (by simp)
  · exact (cancel_sync_spec "google"
      [⟨4, "google", "running", 3, none, 0, 0, none, "manual"⟩]
      (some true) (some true) 77 (by decide)).2.1
      ⟨4, "google", "running", 3, none, 0, 0, none, "manual"⟩ (by decide)
  · exact (cancel_sync_spec "google"
      [⟨4, "google", "running", 3, none, 0, 0, none, "manual"⟩]
      (some true) none 77 (by decide)).2.2

/-! ## Claim C5 -/

/-- Counting a pair in the image of the trigger map counts the schedules
with the matching source. -/
theorem length_filter_map_pair (L : List ScheduleRow) (src : String) :
    ((L.map (fun s => (s.source, "scheduled"))).filter
        (fun t => decide (t = (src, "scheduled")))).length =
      L.countP (fun t => t.source == src) := by
  induction L with
  | nil => rfl
  | cons t rest ih =>
    by_cases h : t.source = src <;>
      simp [List.filter_cons, List.countP_cons, h, ih]

/-- Counting over a filtered list conjoins the filter with the counted
predicate. -/
theorem countP_filter_and (p q : ScheduleRow → Bool) (L : List ScheduleRow) :
    (L.filter q).countP p = L.countP (fun t => p t && q t) := by
  induction L with
  | nil => rfl
  | cons t rest ih =>
    by_cases h : q t <;> simp [List.filter_cons, List.countP_cons, h, ih]

/-- With `source` a primary key, a schedule list holds at most one row per
source, so a per-source count collapses to the predicate at that row. -/
theorem countP_source_unique (p : ScheduleRow → Bool) (s : ScheduleRow)
    (schedules : List ScheduleRow)
    (hnd : (schedules.map (·.source)).Nodup) (hmem : s ∈ schedules) :
    schedules.countP (fun t => t.source == s.source && p t) =
      if p s then 1 else 0 := by
  induction schedules with
  | nil => simp at hmem
  | cons t rest ih =>
    simp only [List.map_cons, List.nodup_cons] at hnd
    rcases List.mem_cons.mp hmem with rfl | hmem'
    · have hz : rest.countP (fun u => u.source == s.source && p u) = 0 := by
        rw [List.countP_eq_zero]
        intro u hu
        have hne : u.source ≠ s.source := by
          intro he
          exact hnd.1 (he ▸ List.mem_map_of_mem (fun r => r.source) hu)
        simp [hne]
      rw [List.countP_cons, hz]
      simp
    · have hne : t.source ≠ s.source := by
        intro he
        exact hnd.1 (he ▸ List.mem_map_of_mem (fun r => r.source) hmem')
      rw [List.countP_cons]
      simp [hne, ih hnd.2 hmem']

/-- C5: a tick at minute ≠ 0 triggers nothing; a tick at minute 0 triggers,
for each schedule row, exactly one `(source, "scheduled")` job when the row
is enabled, lists the current local hour, and its source has no running
ledger row — and zero otherwise (disabled, hour not listed, or already
running).  Schedule rows are keyed by source (`sync_schedules` primary
key), which the `Nodup` hypothesis records. -/
theorem scheduler_tick_spec (minute hour : Int) (schedules : List ScheduleRow)
    (logs : List SyncLogRow) (hnd : (schedules.map (·.source)).Nodup) :
    (minute ≠ 0 → check_and_run_scheduled_syncs minute hour schedules logs = []) ∧
    (∀ s ∈ schedules,
      ((check_and_run_scheduled_syncs 0 hour schedules logs).filter
          (fun t => decide (t = (s.source, "scheduled")))).length =
        if s.enabled = true ∧ hour ∈ s.hours ∧
            ¬ ∃ l ∈ logs, l.source = s.source ∧ l.status = "running"
        then 1 else 0) := by
  constructor
  · intro h
    unfold check_and_run_scheduled_syncs
    rw [if_pos h]
  · intro s hs
    unfold check_and_run_scheduled_syncs
    rw [if_neg (by simp)]
    rw [length_filter_map_pair, countP_filter_and, countP_filter_and]
    have hcongr :
        (schedules.countP fun t =>
          ((t.source == s.source) &&
            (decide (hour ∈ t.hours) && (findRunning logs t.source).isNone)) &&
          t.enabled) =
        schedules.countP (fun t => t.source == s.source &&
          (t.enabled && (decide (hour ∈ t.hours) &&
            (findRunning logs t.source).isNone))) := by
      apply List.countP_congr
      intro t _
      cases h1 : t.source == s.source <;> cases h2 : t.enabled <;>
        cases h3 : decide (hour ∈ t.hours) <;>
        cases h4 : (findRunning logs t.source).isNone <;> simp [h1, h2, h3, h4]
    rw [hcongr, countP_source_unique _ s schedules hnd hs]
    by_cases hc : s.enabled = true ∧ hour ∈ s.hours ∧
        ¬ ∃ l ∈ logs, l.source = s.source ∧ l.status = "running"
    · rw [if_pos hc, if_pos]
      have hrun : (findRunning logs s.source).isNone = true := by
        rcases hrs : findRunning logs s.source with _ | l
        · rfl
        · exact absurd ((findRunning_isSome_iff logs s.source).mp (by simp [hrs]))
            hc.2.2
      simp [hc.1, hc.2.1, hrun]
    · rw [if_neg hc, if_neg]
      intro hb
      apply hc
      simp only [Bool.and_eq_true, decide_eq_true_eq] at hb
      refine ⟨hb.1, hb.2.1, ?_⟩
      intro hex
      have := (findRunning_isSome_iff logs s.source).mpr hex
      rw [Option.isNone_iff_eq_none] at hb
      simp [hb.2.2] at this

/-- Witness for C5: with one enabled schedule `hours = [2, 14]` and nothing
running, a tick at hour 14 minute 30 triggers nothing, a tick at hour 14
minute 0 triggers exactly one scheduled iiq job, and a tick at hour 3
minute 0 triggers none. -/
theorem scheduler_tick_spec_witness :
    check_and_run_scheduled_syncs 30 14 [⟨"iiq", true, [2, 14]⟩] [] = [] ∧
    ((check_and_run_scheduled_syncs 0 14 [⟨"iiq", true, [2, 14]⟩] []).filter
        (fun t => decide (t = ("iiq", "scheduled")))).length = 1 ∧
    ((check_and_run_scheduled_syncs 0 3 [⟨"iiq", true, [2, 14]⟩] []).filter
        (fun t => decide (t = ("iiq", "scheduled")))).length = 0 := by
  have h30 := (scheduler_tick_spec 30 14 [⟨"iiq", true, [2, 14]⟩] []
    (by decide)).1 (by decide)
  have h14 := (scheduler_tick_spec 0 14 [⟨"iiq", true, [2, 14]⟩] []
    (by decide)).2 ⟨"iiq", true, [2, 14]⟩ (by decide)
  have h3 := (scheduler_tick_spec 0 3 [⟨"iiq", true, [2, 14]⟩] []
    (by decide)).2 ⟨"iiq", true, [2, 14]⟩ (by decide)
  refine ⟨h30, ?_, ?_⟩
  · rw [h14, if_pos ⟨rfl, by decide, by simp⟩]
  · rw [h3, if_neg (fun hc => absurd hc.2.1 (by decide))]

/-! ## Claim C7 -/

/-- Every conflict produced by the owner-mismatch rule carries the id
`owner_mismatch`, never `asset_tag_serial_match`. -/
theorem conflictRuleOwner_id (iiq : Option IIQRecord) (g : Option GoogleRecord)
    (c : ConflictItem) (hc : c ∈ conflictRuleOwner iiq g) :
    c.id = "owner_mismatch" := by
  unfold conflictRuleOwner at hc
  split at hc
  · rename_i r gr
    rcases hgu : gr.recentUsers.getD [] with _ | ⟨u0, us⟩
    · simp [hgu] at hc
    · simp only [hgu] at hc
      split at hc
      · rw [List.mem_singleton] at hc
        subst hc
        rfl
      · simp at hc
  · simp at hc

/-- C7: an asset record whose tag and serial are the same non-empty string
yields exactly one conflict with id `asset_tag_serial_match` (whatever the
google record holds), and the rule stays silent when tag and serial differ,
e.g. tag `A-55` against serial `SN123`. -/
theorem detect_conflicts_tag_serial_rule :
    (∀ (r : IIQRecord) (g : Option GoogleRecord) (t : String),
      r.assetTag = some t → r.serialNumber = some t → t ≠ "" →
      ((detect_conflicts (some r) g).filter
          (fun c => c.id == "asset_tag_serial_match")).length = 1) ∧
    ((detect_conflicts (some ⟨some "A-55", some "SN123", none⟩) none).filter
        (fun c => c.id == "asset_tag_serial_match")).length = 0 := by
  constructor
  · intro r g t htag hser hne
    unfold detect_conflicts
    rw [List.filter_append, List.length_append]
    have h2 : (conflictRuleOwner (some r) g).filter
        (fun c => c.id == "asset_tag_serial_match") = [] := by
      rw [List.filter_eq_nil_iff]
      intro c hc
      rw [conflictRuleOwner_id (some r) g c hc]
      decide
    rw [h2]
    have hemp : t.data.isEmpty = false := by
      rcases ht : t.data with _ | ⟨c, cs⟩
      · exact absurd (String.ext (ht.trans rfl)) hne
      · rfl
    simp only [conflictRuleTagSerial, htag, hser]
    simp [strTruthy, hemp]
  · decide

/-- Witness for C7: the tag/serial pair `SN123`/`SN123` produces exactly one
`asset_tag_serial_match` conflict. -/
theorem detect_conflicts_tag_serial_rule_witness :
    ((detect_conflicts (some ⟨some "SN123", some "SN123", none⟩) none).filter
        (fun c => c.id == "asset_tag_serial_match")).length = 1 :=
  detect_conflicts_tag_serial_rule.1 ⟨some "SN123", some "SN123", none⟩ none
    "SN123" rfl rfl (by decide)

/-! ## Claim C8 -/

/-- Membership in an ordered duplicate-dropping insertion. -/
theorem mem_insertUniqueSorted (n m : Int) (l : List Int) :
    m ∈ insertUniqueSorted n l ↔ m = n ∨ m ∈ l := by
  induction l with
  | nil => simp [insertUniqueSorted]
  | cons k rest ih =>
    unfold insertUniqueSorted
    by_cases h1 : n < k
    · simp [h1]
    · by_cases h2 : n = k
      · subst h2
        rw [if_neg h1, if_pos rfl]
        constructor
        · exact fun h => Or.inr h
        · rintro (rfl | h)
          · exact List.mem_cons_self _ _
          · exact h
      · rw [if_neg h1, if_neg h2, List.mem_cons, ih, List.mem_cons]
        tauto

/-- Ordered duplicate-dropping insertion preserves strict ascent. -/
theorem pairwise_insertUniqueSorted (n : Int) (l : List Int)
    (hl : l.Pairwise (· < ·)) :
    (insertUniqueSorted n l).Pairwise (· < ·) := by
  induction l with
  | nil => simp [insertUniqueSorted]
  | cons k rest ih =>
    rw [List.pairwise_cons] at hl
    unfold insertUniqueSorted
    by_cases h1 : n < k
    · rw [if_pos h1]
      refine List.pairwise_cons.mpr ⟨?_, List.pairwise_cons.mpr ⟨hl.1, hl.2⟩⟩
      intro x hx
      rcases List.mem_cons.mp hx with rfl | hx'
      · exact h1
      · exact lt_trans h1 (hl.1 x hx')
    · by_cases h2 : n = k
      · rw [if_neg h1, if_pos h2]
        exact List.pairwise_cons.mpr ⟨hl.1, hl.2⟩
      · rw [if_neg h1, if_neg h2]
        have hkn : k < n := by omega
        refine List.pairwise_cons.mpr ⟨?_, ih hl.2⟩
        intro x hx
        rcases (mem_insertUniqueSorted n x rest).mp hx with rfl | hx'
        · exact hkn
        · exact hl.1 x hx'

/-- The fold underlying `sortedDedup` keeps the accumulator strictly
ascending. -/
theorem sortedDedup_fold_pairwise (l : List Int) (acc : List Int)
    (hacc : acc.Pairwise (· < ·)) :
    (l.foldl (fun acc n => insertUniqueSorted n acc) acc).Pairwise (· < ·) := by
  induction l generalizing acc with
  | nil => simpa using hacc
  | cons n rest ih => exact ih _ (pairwise_insertUniqueSorted n acc hacc)

/-- The fold underlying `sortedDedup` accumulates exactly the members. -/
theorem sortedDedup_fold_mem (l : List Int) (acc : List Int) (m : Int) :
    m ∈ l.foldl (fun acc n => insertUniqueSorted n acc) acc ↔
      m ∈ acc ∨ m ∈ l := by
  induction l generalizing acc with
  | nil => simp
  | cons n rest ih =>
    rw [List.foldl_cons, ih, mem_insertUniqueSorted]
    simp
    tauto

/-- `sortedDedup` is strictly ascending. -/
theorem sortedDedup_pairwise (l : List Int) :
    (sortedDedup l).Pairwise (· < ·) :=
  sortedDedup_fold_pairwise l [] (by simp)

/-- `sortedDedup` has exactly the members of its input. -/
theorem mem_sortedDedup (l : List Int) (m : Int) :
    m ∈ sortedDedup l ↔ m ∈ l := by
  rw [sortedDedup, sortedDedup_fold_mem]
  simp

/-- An integer is among the guarded values exactly when it occurs as a
Python int in the request list. -/
theorem mem_hourInts (hs : List HourVal) (n : Int) :
    n ∈ hourInts hs ↔ HourVal.jint n ∈ hs := by
  rw [hourInts, List.mem_filterMap]
  constructor
  · rintro ⟨h, hmem, heq⟩
    cases h with
    | jint k =>
      simp at heq
      exact heq ▸ hmem
    | other => simp at heq
  · intro hmem
    exact ⟨.jint n, hmem, rfl⟩

/-- C8: for a valid source, a schedule update providing hours is rejected
with HTTP 400 exactly when some element is not an int in [0, 23]; an
accepted update stores an hours list that is strictly ascending and has
exactly the integers of the request (duplicates removed, sorted). -/
theorem update_schedule_spec (source : String) (enabled? : Option Bool)
    (hours : List HourVal) (old : Option ScheduleStored)
    (hs : source ∈ validSources) :
    (update_schedule source enabled? (some hours) old = .error 400 ↔
      ∃ h ∈ hours, hourOk h = false) ∧
    (∀ stored, update_schedule source enabled? (some hours) old = .ok stored →
      stored.hours.Pairwise (· < ·) ∧
      ∀ n : Int, n ∈ stored.hours ↔ HourVal.jint n ∈ hours) := by
  have hmem : ¬ source ∉ validSources := by simpa using hs
  constructor
  · unfold update_schedule
    rw [if_neg hmem]
    by_cases hbad : ∃ h ∈ hours, hourOk h = false
    · rw [if_pos]
      · simpa using hbad
      · obtain ⟨h, hh, hfalse⟩ := hbad
        simp [Option.any, List.all_eq_true]
        exact ⟨h, hh, by simp [hfalse]⟩
    · rw [if_neg]
      · constructor
        · intro habs
          cases old <;> simp at habs
        · intro habs
          exact absurd habs hbad
      · push_neg at hbad
        intro habs
        have hall : hours.all hourOk = true := by
          rw [List.all_eq_true]
          intro h hh
          cases hw : hourOk h with
          | false => exact absurd hw (hbad h hh)
          | true => rfl
        have : ((some hours).any fun l => !l.all hourOk) = false := by
          simp [Option.any, hall]
        rw [this] at habs
        exact Bool.false_ne_true habs
  · intro stored hok
    unfold update_schedule at hok
    rw [if_neg hmem] at hok
    split at hok
    · exact absurd hok (by simp)
    · have hhours : stored.hours = sortedDedup (hourInts hours) := by
        rcases old with _ | sched <;> simp at hok <;> rw [← hok]
      rw [hhours]
      exact ⟨sortedDedup_pairwise _,
        fun n => (mem_sortedDedup _ n).trans (mem_hourInts hours n)⟩

/-- Witness for C8: updating the iiq schedule with hours `[3, 1, 3, 23]`
stores `[1, 3, 23]` — strictly ascending and containing 3. -/
theorem update_schedule_spec_witness :
    ([1, 3, 23] : List Int).Pairwise (· < ·) ∧
    ((3 : Int) ∈ ([1, 3, 23] : List Int) ↔
      HourVal.jint 3 ∈ [HourVal.jint 3, .jint 1, .jint 3, .jint 23]) := by
  have h := (update_schedule_spec "iiq" none
    [HourVal.jint 3, .jint 1, .jint 3, .jint 23] none (by decide)).2
    ⟨"iiq", true, [1, 3, 23]⟩ (by rfl)
  exact ⟨h.1, h.2 3⟩

/-! ## Claim C9 -/

/-- Appending cache rows never changes the result of a lookup that already
succeeds. -/
theorem cacheFind_append_of_some (cache l2 : List LocationCacheRow)
    (id' n : String) (h : cacheFind cache id' = some n) :
    cacheFind (cache ++ l2) id' = some n := by
  unfold cacheFind at h ⊢
  rcases hf : cache.find? (fun e => e.locationId == id') with _ | e
  · rw [hf] at h
    simp at h
  · rw [hf] at h
    rw [List.find?_append, hf]
    simpa using h

/-- C9 counterexample: the claim says a resolution that misses the cache
performs one external lookup *and then writes the entry*, after which every
repeat resolution is served from the cache with no external call.  When the
single external lookup fails, `_get_location_name` writes nothing, and the
very next resolution of the same id goes out to the API again. -/
theorem get_location_name_failed_lookup_not_cached :
    (get_location_name [] "loc-1" .failure).cache = [] ∧
    (get_location_name (get_location_name [] "loc-1" .failure).cache
        "loc-1" .failure).externalCalls = 1 := by
  decide

/-- C9 (amended): for a non-nil location id, `_get_location_name` never
modifies or deletes an existing cache entry; a cache hit is returned with no
external call; a miss performs exactly one external call (and never more
than one call happens); and once a successful lookup has written the entry,
every subsequent resolution of that id is served from the cache with no
external call, whatever the API would do. -/
theorem get_location_name_cache_spec (cache : List LocationCacheRow)
    (locationId : String) (api : LocationApiResult)
    (hid : ¬ (locationId = "" ∨ locationId = nilGuid)) :
    (∀ id' n, cacheFind cache id' = some n →
      cacheFind (get_location_name cache locationId api).cache id' = some n) ∧
    (∀ n, cacheFind cache locationId = some n →
      get_location_name cache locationId api = ⟨some n, cache, 0⟩) ∧
    (get_location_name cache locationId api).externalCalls ≤ 1 ∧
    (cacheFind cache locationId = none →
      (get_location_name cache locationId api).externalCalls = 1) ∧
    (∀ n, cacheFind cache locationId = none → api = .okName n →
      ∀ api', get_location_name (get_location_name cache locationId api).cache
          locationId api' =
        ⟨some n, (get_location_name cache locationId api).cache, 0⟩) := by
  refine ⟨?_, ?_, ?_, ?_, ?_⟩
  · intro id' n h
    rcases api with n' | _ | _ <;>
      rcases hcf : cacheFind cache locationId with _ | m <;>
      simp only [get_location_name, if_neg hid, hcf] <;>
      first
      | exact cacheFind_append_of_some cache _ id' n h
      | exact h
  · intro n h
    simp only [get_location_name, if_neg hid, h]
  · rcases api with n' | _ | _ <;>
      rcases hcf : cacheFind cache locationId with _ | m <;>
      simp [get_location_name, if_neg hid, hcf]
  · intro h
    rcases api with n' | _ | _ <;>
      simp [get_location_name, if_neg hid, h]
  · rintro n hmiss rfl api'
    have hnone : cache.find? (fun e => e.locationId == locationId) = none := by
      unfold cacheFind at hmiss
      rcases hf : cache.find? (fun e => e.locationId == locationId) with _ | e
      · exact hf
      · rw [hf] at hmiss
        simp at hmiss
    have hwrite : cacheFind
        (get_location_name cache locationId (.okName n)).cache locationId =
        some n := by
      simp only [get_location_name, if_neg hid, hmiss]
      unfold cacheFind
      rw [List.find?_append, hnone]
      simp [List.find?]
    generalize hc2 : (get_location_name cache locationId (.okName n)).cache = c2
      at hwrite ⊢
    simp only [get_location_name, if_neg hid, hwrite]

/-- Witness for C9 (amended): an existing entry for `loc-2` survives a
lookup of `loc-1`; the miss costs one external call; and after the
successful lookup wrote `loc-1 ↦ North`, a repeat resolution returns
`North` from the cache with zero external calls even though the API now
fails. -/
theorem get_location_name_cache_spec_witness :
    cacheFind (get_location_name [⟨"loc-2", "Gym"⟩] "loc-1"
        (.okName "North")).cache "loc-2" = some "Gym" ∧
    (get_location_name [⟨"loc-2", "Gym"⟩] "loc-1"
        (.okName "North")).externalCalls = 1 ∧
    get_location_name (get_location_name [⟨"loc-2", "Gym"⟩] "loc-1"
        (.okName "North")).cache "loc-1" .failure =
      ⟨some "North", (get_location_name [⟨"loc-2", "Gym"⟩] "loc-1"
        (.okName "North")).cache, 0⟩ := by
  have h := get_location_name_cache_spec [⟨"loc-2", "Gym"⟩] "loc-1"
    (.okName "North") (by decide)
  exact ⟨h.1 "loc-2" "Gym" (by decide), h.2.2.2.1 (by decide),
    h.2.2.2.2 "North" (by decide) rfl .failure⟩

/-! ## Claim C10 -/

/-- ASCII upcasing is idempotent on code points. -/
theorem upperCode_idem (c : Nat) : upperCode (upperCode c) = upperCode c := by
  by_cases h : 97 ≤ c ∧ c ≤ 122
  · have h1 : upperCode c = c - 32 := by
      unfold upperCode
      rw [if_pos (by simp [h.1, h.2])]
    rw [h1]
    unfold upperCode
    rw [if_neg (by simp; omega)]
  · have h1 : upperCode c = c := by
      unfold upperCode
      rw [if_neg (by simp; omega)]
    rw [h1, h1]

/-- ASCII upcasing keeps hex characters hex. -/
theorem hex_upper_hex (c : Nat) (h : isHexCode c = true) :
    isHexCode (upperCode c) = true := by
  simp only [isHexCode, Bool.or_eq_true, Bool.and_eq_true,
    decide_eq_true_eq] at h ⊢
  unfold upperCode
  split
  · rename_i hc
    simp only [Bool.and_eq_true, decide_eq_true_eq] at hc
    omega
  · exact h

/-- Normalization is idempotent. -/
theorem normalize_mac_idem (s : List Nat) :
    normalize_mac (normalize_mac s) = normalize_mac s := by
  unfold normalize_mac
  rw [List.filter_eq_self.mpr, List.map_map]
  · apply List.map_congr_left
    intro c _
    exact upperCode_idem c
  · intro c hc
    rw [List.mem_map] at hc
    obtain ⟨d, hd, rfl⟩ := hc
    exact hex_upper_hex d (List.mem_filter.mp hd).2

/-- The source's pair-grouping loop agrees with the spec-side chunks-of-two
join. -/
theorem colonJoinPairs_eq_spec : ∀ l : List Nat,
    colonJoinPairs l = specGroupedPairs l
  | [] => rfl
  | [_] => rfl
  | [_, _] => rfl
  | a :: b :: c :: rest => by
    have ih := colonJoinPairs_eq_spec (c :: rest)
    show a :: b :: colonCode :: colonJoinPairs (c :: rest) =
      specGroupedPairs (a :: b :: c :: rest)
    rw [ih]
    unfold specGroupedPairs
    rw [show chunksOfTwo (a :: b :: c :: rest) =
      [a, b] :: chunksOfTwo (c :: rest) from rfl]
    rcases hch : chunksOfTwo (c :: rest) with _ | ⟨k, ks⟩
    · rcases rest with _ | ⟨d, rest'⟩ <;> simp [chunksOfTwo] at hch
    · rw [show ([a, b] :: k :: ks).intersperse [colonCode] =
        [a, b] :: [colonCode] :: (k :: ks).intersperse [colonCode] from rfl]
      simp

/-- Colons inserted by the grouping are removed again by the hex filter. -/
theorem filter_hex_colonJoinPairs : ∀ l : List Nat,
    (colonJoinPairs l).filter isHexCode = l.filter isHexCode
  | [] => rfl
  | [_] => rfl
  | [_, _] => rfl
  | a :: b :: c :: rest => by
    have ih := filter_hex_colonJoinPairs (c :: rest)
    have hcolon : isHexCode colonCode = false := rfl
    show (a :: b :: colonCode :: colonJoinPairs (c :: rest)).filter isHexCode =
      (a :: b :: c :: rest).filter isHexCode
    by_cases ha : isHexCode a <;> by_cases hb : isHexCode b <;>
      simp [List.filter_cons, ha, hb, hcolon, ih]

/-- Formatting is invisible to normalization. -/
theorem normalize_colonJoin_normalize (s : List Nat) :
    normalize_mac (colonJoinPairs (normalize_mac s)) = normalize_mac s := by
  have h : normalize_mac (colonJoinPairs (normalize_mac s)) =
      normalize_mac (normalize_mac s) := by
    unfold normalize_mac
    rw [filter_hex_colonJoinPairs]
  rw [h, normalize_mac_idem]

/-- C10: MAC normalization is idempotent; for an input whose normalization
has exactly 12 hex digits, `format_mac` is that normalization grouped into
colon-separated two-character pairs (stated against the independently
written `specGroupedPairs`); and re-normalizing a formatted MAC gives back
the normalization (for every input, in particular the 12-digit ones). -/
theorem mac_normalize_format_spec :
    (∀ s : List Nat, normalize_mac (normalize_mac s) = normalize_mac s) ∧
    (∀ s : List Nat, (normalize_mac s).length = 12 →
      format_mac s = specGroupedPairs (normalize_mac s)) ∧
    (∀ s : List Nat, normalize_mac (format_mac s) = normalize_mac s) := by
  refine ⟨normalize_mac_idem, ?_, ?_⟩
  · intro s h12
    unfold format_mac
    rw [if_pos h12]
    exact colonJoinPairs_eq_spec _
  · intro s
    unfold format_mac
    by_cases h12 : (normalize_mac s).length = 12
    · rw [if_pos h12]
      exact normalize_colonJoin_normalize s
    · rw [if_neg h12]
      by_cases h6 : (normalize_mac s).length = 6
      · rw [if_pos h6]
        exact normalize_colonJoin_normalize s
      · rw [if_neg h6]
        exact normalize_mac_idem s

/-- Witness for C10: `aa:bb:cc:dd:ee:ff` normalizes to 12 hex digits and is
formatted as the colon-joined pair grouping of its normalization. -/
theorem mac_normalize_format_spec_witness :
    (normalize_mac [97, 97, 58, 98, 98, 58, 99, 99, 58, 100, 100, 58,
        101, 101, 58, 102, 102]).length = 12 ∧
    format_mac [97, 97, 58, 98, 98, 58, 99, 99, 58, 100, 100, 58,
        101, 101, 58, 102, 102] =
      specGroupedPairs (normalize_mac [97, 97, 58, 98, 98, 58, 99, 99, 58,
        100, 100, 58, 101, 101, 58, 102, 102]) :=
  ⟨by decide, mac_normalize_format_spec.2.1 _ (by decide)⟩

/-! ## Claim C2 -/

theorem countOk_append (l1 l2 : List URec) :
    countOk (l1 ++ l2) = countOk l1 + countOk l2 := by
  simp [countOk, List.filter_append]

theorem countBad_append (l1 l2 : List URec) :
    countBad (l1 ++ l2) = countBad l1 + countBad l2 := by
  simp [countBad, List.filter_append]

theorem badIds_append (l1 l2 : List URec) :
    badIds (l1 ++ l2) = badIds l1 ++ badIds l2 := by
  simp [badIds, List.filter_append]

/-- The per-record retry fold counts and records exactly the failures. -/
theorem googleFlushFold_abs (b : List URec) : ∀ c : SyncCounts,
    b.foldl (fun c r => if r.ok then { c with success := c.success + 1 }
      else { c with errors := c.errors + 1, errorIds := c.errorIds ++ [r.id] }) c =
    ⟨c.success + countOk b, c.errors + countBad b, c.errorIds ++ badIds b⟩ := by
  induction b with
  | nil =>
    intro c
    simp [countOk, countBad, badIds]
  | cons r rest ih =>
    intro c
    rw [List.foldl_cons]
    by_cases hr : r.ok = true
    · rw [if_pos hr, ih]
      simp [countOk, countBad, badIds, List.filter_cons, hr]
      omega
    · rw [if_neg hr, ih]
      simp only [Bool.not_eq_true] at hr
      simp [countOk, countBad, badIds, List.filter_cons, hr]
      omega

/-- A google batch flush adds the ok-count to successes and the failures to
the error count and identifier list — whether the batch upsert succeeded
outright or each record was retried individually. -/
theorem googleFlush_abs (c : SyncCounts) (b : List URec) :
    googleFlush c b =
      ⟨c.success + countOk b, c.errors + countBad b, c.errorIds ++ badIds b⟩ := by
  unfold googleFlush
  by_cases hok : batchOk b = true
  · rw [if_pos hok]
    unfold batchOk at hok
    rw [List.all_eq_true] at hok
    have h1 : countOk b = b.length := by
      unfold countOk
      rw [List.filter_eq_self.mpr]
      intro r hr
      exact hok r hr
    have h2 : countBad b = 0 := by
      unfold countBad
      rw [List.length_eq_zero, List.filter_eq_nil_iff]
      intro r hr
      simp [hok r hr]
    have h3 : badIds b = [] := by
      unfold badIds
      rw [List.map_eq_nil_iff, List.filter_eq_nil_iff]
      intro r hr
      simp [hok r hr]
    simp [h1, h2, h3]
  · rw [if_neg hok]
    exact googleFlushFold_abs b c

/-- `googleFlush` of an empty batch is the identity. -/
theorem googleFlush_nil (c : SyncCounts) : googleFlush c [] = c := by
  rw [googleFlush_abs]
  rcases c with ⟨s, e, ids⟩
  simp [countOk, countBad, badIds]

/-- One google loop step on a record with its identifiers present. -/
theorem googleStep_valid (c : SyncCounts) (batch : List URec) (r : URec)
    (hv : r.valid = true) :
    googleStep (c, batch) r =
      if userBatchSize ≤ (batch ++ [r]).length then
        (googleFlush c (batch ++ [r]), [])
      else (c, batch ++ [r]) := by
  simp [googleStep, hv]

/-- One google loop step on a record missing its identifiers. -/
theorem googleStep_invalid (c : SyncCounts) (batch : List URec) (r : URec)
    (hv : r.valid = false) :
    googleStep (c, batch) r = (c, batch) := by
  simp [googleStep, hv]

/-- Invariant of the google fetch loop: however the records fall into
batches of 100, flushing the final state accounts every valid record, with
successes, failures and failure identifiers accumulated in order. -/
theorem googleLoop_abs : ∀ (records : List URec) (c : SyncCounts)
    (batch : List URec),
    googleFlush (records.foldl googleStep (c, batch)).1
      (records.foldl googleStep (c, batch)).2 =
    ⟨c.success + countOk (batch ++ validRecs records),
     c.errors + countBad (batch ++ validRecs records),
     c.errorIds ++ badIds (batch ++ validRecs records)⟩ := by
  intro records
  induction records with
  | nil =>
    intro c batch
    simp only [List.foldl_nil, validRecs, List.filter_nil, List.append_nil]
    exact googleFlush_abs c batch
  | cons r rest ih =>
    intro c batch
    rw [List.foldl_cons]
    by_cases hv : r.valid = true
    · have hval : validRecs (r :: rest) = r :: validRecs rest := by
        simp [validRecs, List.filter_cons, hv]
      rw [googleStep_valid c batch r hv]
      by_cases hlen : userBatchSize ≤ (batch ++ [r]).length
      · rw [if_pos hlen, ih (googleFlush c (batch ++ [r])) [], googleFlush_abs]
        simp only [List.nil_append, hval]
        by_cases hro : r.ok = true <;>
          simp [countOk, countBad, badIds, List.filter_append, List.filter_cons,
            List.append_assoc, hro] <;>
          omega
      · rw [if_neg hlen, ih c (batch ++ [r])]
        simp only [hval]
        rw [show batch ++ r :: validRecs rest =
          (batch ++ [r]) ++ validRecs rest by simp]
    · have hv' : r.valid = false := by simpa using hv
      have hval : validRecs (r :: rest) = validRecs rest := by
        simp [validRecs, List.filter_cons, hv']
      rw [googleStep_invalid c batch r hv', ih c batch, hval]

/-- C2 (amended): `GoogleConnector.bulk_sync_users` isolates batch failures
by retrying each record of a failed batch individually, so for any record
stream the final counters are exactly the per-record outcomes: successes =
ok records, errors = failing records, and `error_details` lists exactly the
failing records' identifiers in order (so N valid records with one failure
end with `records_processed = N-1`, `records_failed = 1` and the bad id
recorded).  `IIQConnector.bulk_sync_users` does not: a 2-record run whose
batch fails because of one bad record ends with success 0, errors 2, and no
identifiers recorded. -/
theorem bulk_sync_users_batch_isolation :
    (∀ records : List URec,
      googleBulkSyncUsers records =
        ⟨countOk (validRecs records), countBad (validRecs records),
         badIds (validRecs records)⟩) ∧
    iiqBulkSyncUsers [⟨"u-ok", true, true⟩, ⟨"u-bad", true, false⟩] =
      ⟨0, 2, []⟩ := by
  constructor
  · intro records
    unfold googleBulkSyncUsers
    have h := googleLoop_abs records ⟨0, 0, []⟩ []
    rcases hs : records.foldl googleStep (⟨0, 0, []⟩, []) with ⟨c1, b1⟩
    rw [hs] at h
    simp only [List.nil_append] at h
    by_cases hb : b1.isEmpty
    · have hb' : b1 = [] := by
        rcases b1 with _ | _
        · rfl
        · simp [List.isEmpty] at hb
      subst hb'
      rw [googleFlush_nil] at h
      simpa using h
    · rw [if_neg hb]
      simpa using h
  · decide

/-- C2 counterexample: the claim asserts that on a failed batched upsert
the layer retries each record individually so that exactly the failing
record is counted and identified (a 2-record run with one bad record ends
processed = 1, failed = 1, bad id recorded); `IIQConnector.bulk_sync_users`
instead ends that run with success 0, errors 2 and an empty error list. -/
theorem iiq_bulk_sync_users_counts_whole_batch :
    ¬ ((iiqBulkSyncUsers [⟨"u-ok", true, true⟩, ⟨"u-bad", true, false⟩]).success = 1 ∧
       (iiqBulkSyncUsers [⟨"u-ok", true, true⟩, ⟨"u-bad", true, false⟩]).errors = 1 ∧
       "u-bad" ∈ (iiqBulkSyncUsers
         [⟨"u-ok", true, true⟩, ⟨"u-bad", true, false⟩]).errorIds) := by
  decide

/-! ## Claim C6 -/

/-- The accumulation loop of `_parse_fee_data`, generalized over the seen
keys and running totals: a successful run sums the balances (and past-due
amounts) of exactly the positive-balance entries whose key is new. -/
theorem computeFeeGo_spec : ∀ (items : List FeeItem)
    (seen : List (Option JVal × Option JVal × Option JVal))
    (tb tpd tb' tpd' : ℚ),
    computeFeeGo items seen tb tpd = .ok (tb', tpd') →
    tb' = tb + ((posDedupFrom seen items).map balOf).sum ∧
    tpd' = tpd + ((posDedupFrom seen items).map pastDueOf).sum := by
  intro items
  induction items with
  | nil =>
    intro seen tb tpd tb' tpd' h
    simp only [computeFeeGo, Except.ok.injEq, Prod.mk.injEq] at h
    simp [posDedupFrom, h.1, h.2]
  | cons i rest ih =>
    intro seen tb tpd tb' tpd' h
    simp only [computeFeeGo] at h
    rcases hb : jfloat (itemGetNum0 i.balance) with e | b <;> rw [hb] at h <;>
      dsimp only at h
    · simp at h
    · by_cases hpos : 0 < b
      · rw [if_pos hpos] at h
        by_cases hseen : feeKey i ∈ seen
        · rw [if_pos hseen] at h
          have := ih seen tb tpd tb' tpd' h
          rwa [show posDedupFrom seen (i :: rest) = posDedupFrom seen rest by
            rw [posDedupFrom, if_neg (fun hc => hc.2 hseen)]]
        · rw [if_neg hseen] at h
          rcases hpd : jfloat (itemGetNum0 i.pastDueAmount) with e | pd <;>
            rw [hpd] at h <;> dsimp only at h
          · simp at h
          · have hrec := ih (feeKey i :: seen) (tb + b) (tpd + pd) tb' tpd' h
            have hposb : posBal i = true := by
              unfold posBal
              rw [hb]
              simpa using hpos
            rw [show posDedupFrom seen (i :: rest) =
              i :: posDedupFrom (feeKey i :: seen) rest by
              rw [posDedupFrom, if_pos ⟨hposb, hseen⟩]]
            have hbal : balOf i = b := by
              unfold balOf
              rw [hb]
            have hpdv : pastDueOf i = pd := by
              unfold pastDueOf
              rw [hpd]
            simp only [List.map_cons, List.sum_cons, hbal, hpdv]
            constructor
            · rw [hrec.1, add_assoc]
            · rw [hrec.2, add_assoc]
      · rw [if_neg hpos] at h
        have := ih seen tb tpd tb' tpd' h
        have hposb : posBal i = false := by
          unfold posBal
          rw [hb]
          simpa using hpos
        rwa [show posDedupFrom seen (i :: rest) = posDedupFrom seen rest by
          rw [posDedupFrom, if_neg (fun hc => by simp [hposb] at hc)]]

/-- C6: when the Fee Tracker field's value parses as a JSON list and the
balances convert, the computed total sums the balance of each entry with
positive balance, counting entries with identical raw
(Amount, Balance, LastActivityDate) keys exactly once (`posDedupFrom []`),
and the record's fee pair is that total (`None` in place of a
non-positive total); a fee field whose value fails to parse yields
`(None, None)` instead of aborting the record. -/
theorem parse_fee_data_spec :
    (∀ (items : List FeeItem) (tb tpd : ℚ),
      computeFee items = .ok (tb, tpd) →
        tb = ((posDedupFrom [] items).map balOf).sum ∧
        tpd = ((posDedupFrom [] items).map pastDueOf).sum ∧
        parse_fee_data [⟨feeFieldTypeId, some (.jsonList items)⟩] =
          .ok (mkFeeOpt tb, mkFeeOpt tpd)) ∧
    parse_fee_data [⟨feeFieldTypeId, some .notJson⟩] = .ok (none, none) := by
  constructor
  · intro items tb tpd h
    have hgo := computeFeeGo_spec items [] 0 0 tb tpd h
    refine ⟨by simpa using hgo.1, by simpa using hgo.2, ?_⟩
    simp only [parse_fee_data, beq_self_eq_true, if_true]
    rw [h]
  · simp only [parse_fee_data, beq_self_eq_true, if_true]

/-- Witness for C6: a Fee Tracker list holding the same entry (amount
`"50.00"`, balance 5, past due 2, same activity date) twice computes total
balance 5 — the duplicate is counted once — and the parsed record fields
are `(some 5, some 2)`. -/
theorem parse_fee_data_spec_witness :
    computeFee
      [⟨some (.str "50.00"), some (.num 5), some (.str "2024-01-01"), some (.num 2)⟩,
       ⟨some (.str "50.00"), some (.num 5), some (.str "2024-01-01"), some (.num 2)⟩] =
      .ok (5, 2) ∧
    (5 : ℚ) = ((posDedupFrom []
      [⟨some (.str "50.00"), some (.num 5), some (.str "2024-01-01"), some (.num 2)⟩,
       ⟨some (.str "50.00"), some (.num 5), some (.str "2024-01-01"), some (.num 2)⟩]).map
        balOf).sum ∧
    parse_fee_data [⟨feeFieldTypeId, some (.jsonList
      [⟨some (.str "50.00"), some (.num 5), some (.str "2024-01-01"), some (.num 2)⟩,
       ⟨some (.str "50.00"), some (.num 5), some (.str "2024-01-01"), some (.num 2)⟩])⟩] =
      .ok (some 5, some 2) := by
  have hb5 : (0 : ℚ) < 5 := by norm_num
  have hb2 : (0 : ℚ) < 2 := by norm_num
  have hcomp : computeFee
      [⟨some (.str "50.00"), some (.num 5), some (.str "2024-01-01"), some (.num 2)⟩,
       ⟨some (.str "50.00"), some (.num 5), some (.str "2024-01-01"), some (.num 2)⟩] =
      .ok (5, 2) := by
    simp [computeFee, computeFeeGo, jfloat, itemGetNum0, feeKey, hb5]
  have h := (parse_fee_data_spec.1 _ 5 2 hcomp)
  refine ⟨hcomp, h.1, ?_⟩
  rw [h.2.2]
  simp [mkFeeOpt, hb5, hb2]

end Atlas
